import Mathlib

/-!
Verification of the mezzanine `core/forms.py` module: a shallow embedding of
its form classes and of the `get_edit_form` factory, together with theorems
about the behaviour of each operation.

Widget attribute dictionaries and form field dictionaries are modelled as
association lists with Python dict semantics: assignment replaces the value
at an existing key in place, otherwise appends the new key at the end.
-/

/-- Python dict lookup with a default: `d.get(k, dflt)`. -/
def dictGet {α : Type} (d : List (String × α)) (k : String) (dflt : α) : α :=
  match d with
  | [] => dflt
  | a :: t => if a.1 = k then a.2 else dictGet t k dflt

/-- Python dict assignment `d[k] = v`: replaces the first binding of `k`,
otherwise appends `(k, v)` at the end. -/
def dictSet {α : Type} (d : List (String × α)) (k : String) (v : α) :
    List (String × α) :=
  match d with
  | [] => [(k, v)]
  | a :: t => if a.1 = k then (k, v) :: t else a :: dictSet t k v

/-- Python membership test `k in d`. -/
def dictContains {α : Type} (d : List (String × α)) (k : String) : Bool :=
  match d with
  | [] => false
  | a :: t => if a.1 = k then true else dictContains t k

theorem dictGet_dictSet_same {α : Type} (d : List (String × α)) (k : String)
    (v dflt : α) : dictGet (dictSet d k v) k dflt = v := by
  induction d with
  | nil => simp [dictGet, dictSet]
  | cons a t ih =>
      by_cases h : a.1 = k
      · simp [dictGet, dictSet, h]
      · simp [dictGet, dictSet, h, ih]

theorem dictGet_dictSet_ne {α : Type} (d : List (String × α)) (k q : String)
    (v : α) (dflt : α) (hne : q ≠ k) :
    dictGet (dictSet d k v) q dflt = dictGet d q dflt := by
  induction d with
  | nil => simp [dictGet, dictSet, hne, Ne.symm hne]
  | cons a t ih =>
      by_cases h : a.1 = k
      · simp [dictGet, dictSet, h, hne, Ne.symm hne]
      · by_cases hq : a.1 = q <;>
          simp [dictGet, dictSet, h, hq, ih, hne, Ne.symm hne]

theorem dictContains_dictSet_same {α : Type} (d : List (String × α))
    (k : String) (v : α) : dictContains (dictSet d k v) k = true := by
  induction d with
  | nil => simp [dictContains, dictSet]
  | cons a t ih =>
      by_cases h : a.1 = k
      · simp [dictContains, dictSet, h]
      · simp [dictContains, dictSet, h, ih]

theorem dictContains_dictSet_ne {α : Type} (d : List (String × α))
    (k q : String) (v : α) (hne : q ≠ k) :
    dictContains (dictSet d k v) q = dictContains d q := by
  induction d with
  | nil => simp [dictContains, dictSet, hne, Ne.symm hne]
  | cons a t ih =>
      by_cases h : a.1 = k
      · simp [dictContains, dictSet, h, hne, Ne.symm hne]
      · by_cases hq : a.1 = q <;>
          simp [dictContains, dictSet, h, hq, ih, hne, Ne.symm hne]

theorem dictSet_append_of_not_contains {α : Type} (d : List (String × α))
    (k : String) (v : α) (h : dictContains d k = false) :
    dictSet d k v = d ++ [(k, v)] := by
  induction d with
  | nil => simp [dictSet]
  | cons a t ih =>
      by_cases hk : a.1 = k
      · simp [dictContains, hk] at h
      · simp [dictContains, hk] at h
        simp [dictSet, hk, ih h]

/-!
## `UserForm.__init__`: cookie-based email pre-fill

The constructor iterates over the request cookie values in their native
order, validates each against the email validator, and sets the initial
email to the first value that validates, skipping the rest.  The email
validator itself is framework code, so the embedding is parametric in the
validity predicate.
-/

/-- The cookie scan of `UserForm.__init__`: the first cookie value accepted
by the email validator, or `none` when every value is rejected. -/
def UserForm.initialEmail (isValidEmail : String → Bool) :
    List String → Option String
  | [] => none
  | v :: rest =>
      if isValidEmail v then some v else UserForm.initialEmail isValidEmail rest

/-!
## `SignupForm.clean_email`

Field-level validation of the signup email: `User.objects.get(username=email)`
raising `DoesNotExist` means the email is free; finding a user raises the
duplicate-email validation error.  The user registry is modelled as the list
of registered usernames.
-/

/-- `SignupForm.clean_email`: rejects an email already registered as a
username, returns the email unchanged otherwise. -/
def SignupForm.clean_email (registry : List String) (email : String) :
    Except String String :=
  if email ∈ registry then Except.error "This email is already registered"
  else Except.ok email

/-- Field-level validation of the signup form: runs `clean_email` on the
email field; the password field has no custom cleaning. -/
def SignupForm.fieldValidation (registry : List String)
    (email password : String) : Except String (String × String) :=
  match SignupForm.clean_email registry email with
  | Except.error e => Except.error e
  | Except.ok cleaned => Except.ok (cleaned, password)

/-!
## `SignupForm.save`

The observable effects of `save`: the created user record (username, email,
active flag as `create_user` plus the conditional `is_active = False`), and
whether the `authenticate` and `login` operations were invoked.
-/

/-- Observable outcome of `SignupForm.save`. -/
structure SignupSaveResult where
  createdUsername : String
  createdEmail : String
  isActive : Bool
  authenticateCalled : Bool
  loginCalled : Bool
deriving Repr, DecidableEq

/-- `User.objects.create_user(username, email, password)`: a fresh user is
created active; no authentication or session login happens here. -/
def create_user (username email _password : String) : SignupSaveResult :=
  { createdUsername := username, createdEmail := email, isActive := true,
    authenticateCalled := false, loginCalled := false }

/-- `SignupForm.save`: creates the user with the email as username; with
verification required the account is deactivated, otherwise `authenticate`
is invoked; `login` is never invoked here. -/
def SignupForm.save (verificationRequired : Bool) (email password : String) :
    SignupSaveResult :=
  let user := create_user email email password
  if verificationRequired then { user with isActive := false }
  else { user with authenticateCalled := true }

/-!
## `LoginForm.clean`

Whole-form validation: when both fields cleaned successfully, invoke the
authenticator, then reject on no user or on an inactive user.  The
authenticator is framework code, so the embedding is parametric in it.
-/

/-- A user as seen by `LoginForm.clean`: only the active flag matters. -/
structure AuthUser where
  is_active : Bool
deriving Repr, DecidableEq

/-- `LoginForm.clean`: the validation outcome paired with whether the
`authenticate` operation was invoked.  `cleanedEmail` and `cleanedPassword`
are `none` when the corresponding field failed its own validation. -/
def LoginForm.clean (cleanedEmail cleanedPassword : Option String)
    (authenticateFn : String → String → Option AuthUser) :
    Except String Unit × Bool :=
  match cleanedEmail, cleanedPassword with
  | some e, some p =>
      match authenticateFn e p with
      | none => (Except.error "Invalid email/password", true)
      | some u =>
          if u.is_active = false then
            (Except.error "Your account is inactive", true)
          else (Except.ok (), true)
  | _, _ => (Except.ok (), false)

/-!
## `TinyMceWidget.__init__`

After delegating to the `Textarea` constructor, the constructor writes the
`"class"` attribute, overwriting whatever the attribute dictionary held.
-/

/-- `TinyMceWidget.__init__` as a transformation of the attribute dictionary
left by the superclass constructor. -/
def TinyMceWidget.initAttrs (attrs : List (String × String)) :
    List (String × String) :=
  dictSet attrs "class" "mceEditor"

/-!
## `get_edit_form` and the `EditForm` it builds

Form field classes and widgets are modelled by their class identity plus
the attribute dictionary; only the classes occurring in the module and the
widget override table matter.
-/

/-- The class of a form field, as `self.fields[f].__class__`. -/
inductive FormFieldClass
  | CharField
  | DateField
  | DateTimeField
  | EmailField
  | IntegerField
  | BooleanField
deriving Repr, DecidableEq

/-- `field_class.__name__.lower()`. -/
def FormFieldClass.lowerName : FormFieldClass → String
  | .CharField => "charfield"
  | .DateField => "datefield"
  | .DateTimeField => "datetimefield"
  | .EmailField => "emailfield"
  | .IntegerField => "integerfield"
  | .BooleanField => "booleanfield"

/-- The form field type constants of `mezzanine.forms.fields` used as keys
into its widget table. -/
inductive FormsFieldType
  | DATE
  | DATE_TIME
  | EMAIL
deriving Repr, DecidableEq

/-- The identity of a widget class. -/
inductive WidgetKind
  | TextInput
  | HiddenInput
  | Textarea
  | OrderWidget
  | DateWidget
  | DateTimeWidget
  | EmailWidget
deriving Repr, DecidableEq

/-- A widget instance: its class plus its attribute dictionary. -/
structure Widget where
  kind : WidgetKind
  attrs : List (String × String)
deriving Repr, DecidableEq

/-- Modelled from the spec: `mezzanine.forms.fields.WIDGETS` is not under
`src/`; the spec describes it as a fixed map from the field kinds date,
datetime and email to specialized widget implementations, instantiated
fresh (`fields.WIDGETS[field_type]()`), so each entry is a new widget of
the corresponding specialized class with an empty attribute dictionary. -/
def WIDGETS : FormsFieldType → Widget
  | .DATE => { kind := .DateWidget, attrs := [] }
  | .DATE_TIME => { kind := .DateTimeWidget, attrs := [] }
  | .EMAIL => { kind := .EmailWidget, attrs := [] }

/-- The `widget_overrides` table of `get_edit_form`, keyed by form field
class. -/
def widget_overrides : FormFieldClass → Option FormsFieldType
  | .DateField => some FormsFieldType.DATE
  | .DateTimeField => some FormsFieldType.DATE_TIME
  | .EmailField => some FormsFieldType.EMAIL
  | _ => none

/-- A form field instance: its class, its required flag and its widget. -/
structure FormField where
  fieldClass : FormFieldClass
  required : Bool
  widget : Widget
deriving Repr, DecidableEq

/-- The widget substitution step of `EditForm.__init__`: when the field
class is in `widget_overrides`, the widget is replaced by a fresh
specialized widget; a `KeyError` leaves the field unchanged. -/
def EditForm.substituteWidget (fld : FormField) : FormField :=
  match widget_overrides fld.fieldClass with
  | some ft => { fld with widget := WIDGETS ft }
  | none => fld

/-- `self.fields[f].widget.attrs[k] = v`. -/
def EditForm.setWidgetAttr (fld : FormField) (k v : String) : FormField :=
  { fld with widget := { fld.widget with attrs := dictSet fld.widget.attrs k v } }

/-- The per-field body of the loop in `EditForm.__init__`: widget
substitution, CSS class append, uuid-suffixed id, and the conditional
HTML5 `required` attribute. -/
def EditForm.processField (useHtml5 : Bool) (uuid name : String)
    (fld : FormField) : FormField :=
  let fld1 := EditForm.substituteWidget fld
  let cssClass :=
    dictGet fld1.widget.attrs "class" "" ++ " " ++ fld1.fieldClass.lowerName
  let fld2 := EditForm.setWidgetAttr fld1 "class" cssClass
  let fld3 := EditForm.setWidgetAttr fld2 "id" (name ++ "-" ++ uuid)
  if useHtml5 && fld3.required then EditForm.setWidgetAttr fld3 "required" ""
  else fld3

/-- One hidden bookkeeping field of `EditForm`: a required `CharField`
with a `HiddenInput` widget. -/
def EditForm.hiddenBookkeepingField : FormField :=
  { fieldClass := FormFieldClass.CharField, required := true,
    widget := { kind := WidgetKind.HiddenInput, attrs := [] } }

/-- The four hidden bookkeeping fields declared on `EditForm`. -/
def EditForm.hiddenBookkeepingFields : List (String × FormField) :=
  [("app", EditForm.hiddenBookkeepingField),
   ("model", EditForm.hiddenBookkeepingField),
   ("id", EditForm.hiddenBookkeepingField),
   ("fields", EditForm.hiddenBookkeepingField)]

/-- `self.fields` after `super().__init__()`: the fields derived from
`Meta.fields` followed by the declared hidden bookkeeping fields. -/
def EditForm.allFields (modelFields : List (String × FormField)) :
    List (String × FormField) :=
  modelFields ++ EditForm.hiddenBookkeepingFields

/-- The loop of `EditForm.__init__`: every entry of `self.fields` is
processed. -/
def EditForm.initFields (useHtml5 : Bool) (uuid : String)
    (flds : List (String × FormField)) : List (String × FormField) :=
  flds.map (fun p => (p.1, EditForm.processField useHtml5 uuid p.1 p.2))

/-- Python `str.split(",")`: splits on every comma, keeping empty pieces,
defined over the character list of the string. -/
def splitCommaAux : List Char → List Char → List String
  | [], acc => [String.mk acc.reverse]
  | c :: cs, acc =>
      if c = ',' then String.mk acc.reverse :: splitCommaAux cs []
      else splitCommaAux cs (c :: acc)

/-- `field_names.split(",")`. -/
def splitComma (s : String) : List String :=
  splitCommaAux s.data []

/-- Python `str.lower()` on the character list of the string. -/
def lowerString (s : String) : String :=
  String.mk (s.data.map Char.toLower)

/-- The data of the edit target object consulted by `get_edit_form`. -/
structure EditTarget where
  app_label : String
  object_name : String
  objId : Nat
  modelFieldNames : List String
deriving Repr, DecidableEq

/-- The shape of the form returned by `get_edit_form`: the editable model
fields selected by `Meta.fields` and the initial data of the four hidden
bookkeeping fields. -/
structure EditFormSpec where
  metaFields : List String
  initialApp : String
  initialModel : String
  initialId : Nat
  initialFields : String
deriving Repr, DecidableEq

/-- `get_edit_form(obj, field_names)`: `Meta.fields` is the comma-split of
`field_names`, and the initial data holds the app label, the lower-cased
model name, the object id and the verbatim `field_names` string. -/
def get_edit_form (obj : EditTarget) (field_names : String) : EditFormSpec :=
  { metaFields := splitComma field_names
  , initialApp := obj.app_label
  , initialModel := lowerString obj.object_name
  , initialId := obj.objId
  , initialFields := field_names }

/-!
## `DynamicInlineAdminForm.__init__`
-/

/-- The extra order field: `forms.CharField(label="Order",
widget=OrderWidget, required=False)`. -/
def DynamicInlineAdminForm.orderField : FormField :=
  { fieldClass := FormFieldClass.CharField, required := false,
    widget := { kind := WidgetKind.OrderWidget, attrs := [] } }

/-- `DynamicInlineAdminForm.__init__`: after the standard model form
construction, assigns `self.fields["_order"]` exactly when the bound model
is a subclass of `Orderable`. -/
def DynamicInlineAdminForm.initFields (modelIsOrderable : Bool)
    (baseFields : List (String × FormField)) : List (String × FormField) :=
  if modelIsOrderable then
    dictSet baseFields "_order" DynamicInlineAdminForm.orderField
  else baseFields

/-!
## Claim theorems
-/

/-- C1: constructing a `UserForm` sets the initial email to the first
cookie value accepted by the email validator, in the cookie collection
order, skipping rejected values; when no cookie value is accepted, no
initial email is set. -/
theorem c1_userform_email_prefill (isValid : String → Bool)
    (cookies : List String) :
    ((∃ v ∈ cookies, isValid v = true) →
      ∃ pre v post, cookies = pre ++ v :: post ∧
        (∀ u ∈ pre, isValid u = false) ∧ isValid v = true ∧
        UserForm.initialEmail isValid cookies = some v) ∧
    ((∀ v ∈ cookies, isValid v = false) →
      UserForm.initialEmail isValid cookies = none) := by
  induction cookies with
  | nil =>
      refine ⟨?_, fun _ => rfl⟩
      rintro ⟨v, hv, _⟩
      cases hv
  | cons a t ih =>
      constructor
      · rintro ⟨v, hv, hval⟩
        by_cases ha : isValid a = true
        · exact ⟨[], a, t, rfl, by simp, ha,
            by simp [UserForm.initialEmail, ha]⟩
        · have ha2 : isValid a = false := by
            cases hfa : isValid a with
            | true => exact absurd hfa ha
            | false => rfl
          have hvt : v ∈ t := by
            rcases List.mem_cons.mp hv with h | h
            · rw [h] at hval
              rw [hval] at ha2
              cases ha2
            · exact h
          obtain ⟨pre, w, post, heq, hpre, hw, hres⟩ := ih.1 ⟨v, hvt, hval⟩
          refine ⟨a :: pre, w, post, by rw [heq]; rfl, ?_, hw, ?_⟩
          · intro u hu
            rcases List.mem_cons.mp hu with h | h
            · rw [h]; exact ha2
            · exact hpre u h
          · simp [UserForm.initialEmail, ha2, hres]
      · intro hall
        have ha : isValid a = false := hall a (List.mem_cons_self a t)
        have ht := ih.2 (fun v hv => hall v (List.mem_cons_of_mem a hv))
        simp [UserForm.initialEmail, ha, ht]

theorem c1_witness :
    UserForm.initialEmail (fun s => s == "a@b.c") ["x", "a@b.c"]
      = some "a@b.c" ∧
    UserForm.initialEmail (fun s => s == "a@b.c") ["x", "y"] = none := by
  constructor
  · obtain ⟨pre, v, post, heq, hpre, hv, hres⟩ :=
      (c1_userform_email_prefill (fun s => s == "a@b.c") ["x", "a@b.c"]).1
        ⟨"a@b.c", by simp, by decide⟩
    have hveq : v = "a@b.c" := by simpa using hv
    rw [hres, hveq]
  · exact (c1_userform_email_prefill (fun s => s == "a@b.c") ["x", "y"]).2
      (by decide)

/-- C2: signup field validation fails with the duplicate-email error for
every email already in the registry, regardless of password, and passes
with the submitted email as cleaned value otherwise. -/
theorem c2_signup_duplicate_email (registry : List String)
    (email password : String) :
    (email ∈ registry →
      SignupForm.fieldValidation registry email password =
        Except.error "This email is already registered") ∧
    (email ∉ registry →
      SignupForm.fieldValidation registry email password =
        Except.ok (email, password)) := by
  constructor
  · intro h
    simp [SignupForm.fieldValidation, SignupForm.clean_email, h]
  · intro h
    simp [SignupForm.fieldValidation, SignupForm.clean_email, h]

theorem c2_witness :
    SignupForm.fieldValidation ["a@b.c"] "a@b.c" "pw" =
      Except.error "This email is already registered" ∧
    SignupForm.fieldValidation ["a@b.c"] "new@b.c" "pw2" =
      Except.ok ("new@b.c", "pw2") :=
  ⟨(c2_signup_duplicate_email ["a@b.c"] "a@b.c" "pw").1 (by decide),
   (c2_signup_duplicate_email ["a@b.c"] "new@b.c" "pw2").2 (by decide)⟩

/-- C3: `SignupForm.save` creates the user with the submitted email as
username and never performs the session login; with verification required
the account is inactive and `authenticate` is not invoked; without it
`authenticate` is invoked. -/
theorem c3_signup_save (vr : Bool) (email password : String) :
    (SignupForm.save vr email password).createdUsername = email ∧
    (SignupForm.save vr email password).loginCalled = false ∧
    (vr = true →
      (SignupForm.save vr email password).isActive = false ∧
      (SignupForm.save vr email password).authenticateCalled = false) ∧
    (vr = false →
      (SignupForm.save vr email password).authenticateCalled = true) := by
  cases vr <;> simp [SignupForm.save, create_user]

theorem c3_witness :
    ((SignupForm.save true "a@b.c" "pw").isActive = false ∧
      (SignupForm.save true "a@b.c" "pw").authenticateCalled = false) ∧
    (SignupForm.save false "a@b.c" "pw").authenticateCalled = true :=
  ⟨(c3_signup_save true "a@b.c" "pw").2.2.1 rfl,
   (c3_signup_save false "a@b.c" "pw").2.2.2 rfl⟩

/-- C4: once both fields cleaned, `LoginForm.clean` invokes the
authenticator and fails with the invalid-credentials error exactly when it
returns no user, fails with the inactive-account error exactly when it
returns an inactive user, and passes exactly when it returns an active
user. -/
theorem c4_login_clean (e p : String)
    (fn : String → String → Option AuthUser) :
    (LoginForm.clean (some e) (some p) fn).2 = true ∧
    ((LoginForm.clean (some e) (some p) fn).1 =
        Except.error "Invalid email/password" ↔ fn e p = none) ∧
    ((LoginForm.clean (some e) (some p) fn).1 =
        Except.error "Your account is inactive" ↔
      ∃ u, fn e p = some u ∧ u.is_active = false) ∧
    ((LoginForm.clean (some e) (some p) fn).1 = Except.ok () ↔
      ∃ u, fn e p = some u ∧ u.is_active = true) := by
  have hne : ("Invalid email/password" : String) ≠ "Your account is inactive" :=
    by decide
  cases hfn : fn e p with
  | none => simp [LoginForm.clean, hfn, hne]
  | some u => cases hu : u.is_active <;> simp [LoginForm.clean, hfn, hu, hne]

theorem c4_witness :
    (LoginForm.clean (some "e") (some "p") (fun _ _ => none)).1 =
      Except.error "Invalid email/password" ∧
    (LoginForm.clean (some "e") (some "p")
        (fun _ _ => some { is_active := false })).1 =
      Except.error "Your account is inactive" ∧
    (LoginForm.clean (some "e") (some "p")
        (fun _ _ => some { is_active := true })).1 = Except.ok () :=
  ⟨(c4_login_clean "e" "p" (fun _ _ => none)).2.1.mpr rfl,
   (c4_login_clean "e" "p" (fun _ _ => some { is_active := false })).2.2.1.mpr
     ⟨{ is_active := false }, rfl, rfl⟩,
   (c4_login_clean "e" "p" (fun _ _ => some { is_active := true })).2.2.2.mpr
     ⟨{ is_active := true }, rfl, rfl⟩⟩

/-- C10: the `TinyMceWidget` constructor overwrites the class attribute
with the editor styling class for every attribute dictionary, replacing
any pre-existing class value; all other attributes are untouched. -/
theorem c10_tinymce_class_overwritten (attrs : List (String × String)) :
    dictGet (TinyMceWidget.initAttrs attrs) "class" "" = "mceEditor" ∧
    (∀ k dflt, k ≠ "class" →
      dictGet (TinyMceWidget.initAttrs attrs) k dflt = dictGet attrs k dflt) :=
  ⟨dictGet_dictSet_same attrs "class" "mceEditor" "",
   fun k dflt hk => dictGet_dictSet_ne attrs "class" k "mceEditor" dflt hk⟩

theorem c10_witness :
    dictGet (TinyMceWidget.initAttrs [("class", "old"), ("rows", "10")])
      "class" "" = "mceEditor" ∧
    dictGet (TinyMceWidget.initAttrs [("class", "old"), ("rows", "10")])
      "rows" "" = "10" := by
  refine ⟨(c10_tinymce_class_overwritten [("class", "old"), ("rows", "10")]).1,
    ?_⟩
  have h := (c10_tinymce_class_overwritten [("class", "old"), ("rows", "10")]).2
      "rows" "" (by decide)
  rw [h]
  decide

/-!
## Helper lemmas about the `EditForm.__init__` field loop
-/

theorem substituteWidget_fieldClass (fld : FormField) :
    (EditForm.substituteWidget fld).fieldClass = fld.fieldClass := by
  unfold EditForm.substituteWidget
  cases h : widget_overrides fld.fieldClass <;> simp [h]

theorem substituteWidget_required (fld : FormField) :
    (EditForm.substituteWidget fld).required = fld.required := by
  unfold EditForm.substituteWidget
  cases h : widget_overrides fld.fieldClass <;> simp [h]

theorem substituteWidget_of_override (fld : FormField) (ft : FormsFieldType)
    (h : widget_overrides fld.fieldClass = some ft) :
    (EditForm.substituteWidget fld).widget = WIDGETS ft := by
  unfold EditForm.substituteWidget
  rw [h]

theorem substituteWidget_of_none (fld : FormField)
    (h : widget_overrides fld.fieldClass = none) :
    EditForm.substituteWidget fld = fld := by
  unfold EditForm.substituteWidget
  rw [h]

theorem processField_kind (h5 : Bool) (uuid name : String) (fld : FormField) :
    (EditForm.processField h5 uuid name fld).widget.kind
      = (EditForm.substituteWidget fld).widget.kind := by
  unfold EditForm.processField EditForm.setWidgetAttr
  dsimp only
  split <;> rfl

theorem processField_class (h5 : Bool) (uuid name : String) (fld : FormField) :
    dictGet (EditForm.processField h5 uuid name fld).widget.attrs "class" ""
      = dictGet (EditForm.substituteWidget fld).widget.attrs "class" ""
        ++ " " ++ fld.fieldClass.lowerName := by
  have hfc := substituteWidget_fieldClass fld
  unfold EditForm.processField EditForm.setWidgetAttr
  dsimp only
  split
  · rw [dictGet_dictSet_ne _ "required" "class" _ _ (by decide),
      dictGet_dictSet_ne _ "id" "class" _ _ (by decide),
      dictGet_dictSet_same, hfc]
  · rw [dictGet_dictSet_ne _ "id" "class" _ _ (by decide),
      dictGet_dictSet_same, hfc]

theorem processField_id (h5 : Bool) (uuid name : String) (fld : FormField) :
    dictGet (EditForm.processField h5 uuid name fld).widget.attrs "id" ""
      = name ++ "-" ++ uuid := by
  unfold EditForm.processField EditForm.setWidgetAttr
  dsimp only
  split
  · rw [dictGet_dictSet_ne _ "required" "id" _ _ (by decide),
      dictGet_dictSet_same]
  · rw [dictGet_dictSet_same]

/-!
## Claim theorems for `get_edit_form` and the inline admin form
-/

/-- C5: `get_edit_form` restricts the editable model fields to exactly the
comma-separated names and carries the app label, the lower-cased model
name, the object id and the verbatim name string as hidden initial data. -/
theorem c5_get_edit_form (obj : EditTarget) (field_names : String)
    (_hnames : ∀ n ∈ splitComma field_names, n ∈ obj.modelFieldNames) :
    (get_edit_form obj field_names).metaFields = splitComma field_names ∧
    (get_edit_form obj field_names).initialApp = obj.app_label ∧
    (get_edit_form obj field_names).initialModel = lowerString obj.object_name ∧
    (get_edit_form obj field_names).initialId = obj.objId ∧
    (get_edit_form obj field_names).initialFields = field_names :=
  ⟨rfl, rfl, rfl, rfl, rfl⟩

/-- A concrete edit target used by witnesses. -/
def exampleEditTarget : EditTarget :=
  { app_label := "blog", object_name := "BlogPost", objId := 7,
    modelFieldNames := ["title", "start_date"] }

/-- A concrete date field used by witnesses. -/
def exampleDateField : FormField :=
  { fieldClass := FormFieldClass.DateField, required := true,
    widget := { kind := WidgetKind.TextInput, attrs := [] } }

/-- A concrete required char field used by witnesses. -/
def exampleTitleField : FormField :=
  { fieldClass := FormFieldClass.CharField, required := true,
    widget := { kind := WidgetKind.TextInput, attrs := [] } }

theorem c5_witness :
    (get_edit_form exampleEditTarget "title,start_date").metaFields
      = ["title", "start_date"] ∧
    (get_edit_form exampleEditTarget "title,start_date").initialApp = "blog" ∧
    (get_edit_form exampleEditTarget "title,start_date").initialModel
      = "blogpost" ∧
    (get_edit_form exampleEditTarget "title,start_date").initialId = 7 ∧
    (get_edit_form exampleEditTarget "title,start_date").initialFields
      = "title,start_date" := by
  obtain ⟨h1, h2, h3, h4, h5⟩ :=
    c5_get_edit_form exampleEditTarget "title,start_date" (by decide)
  refine ⟨?_, h2, ?_, h4, h5⟩
  · rw [h1]
    decide
  · rw [h3]
    decide

/-- C6: in the edit form, date, datetime and email fields get their widget
replaced through the override map, every field widget class attribute is
the class attribute of the post-substitution widget with the lower-cased
field class name appended, and every field widget id attribute is the
field name, a hyphen, and the per-instance uuid. -/
theorem c6_editform_field_processing (h5 : Bool) (uuid name : String)
    (fld : FormField) :
    (∀ ft, widget_overrides fld.fieldClass = some ft →
      (EditForm.processField h5 uuid name fld).widget.kind
        = (WIDGETS ft).kind) ∧
    (widget_overrides fld.fieldClass = none →
      (EditForm.processField h5 uuid name fld).widget.kind
        = fld.widget.kind) ∧
    dictGet (EditForm.processField h5 uuid name fld).widget.attrs "class" ""
      = dictGet (EditForm.substituteWidget fld).widget.attrs "class" ""
        ++ " " ++ fld.fieldClass.lowerName ∧
    dictGet (EditForm.processField h5 uuid name fld).widget.attrs "id" ""
      = name ++ "-" ++ uuid := by
  refine ⟨?_, ?_, processField_class h5 uuid name fld,
    processField_id h5 uuid name fld⟩
  · intro ft hft
    rw [processField_kind, substituteWidget_of_override fld ft hft]
  · intro hn
    rw [processField_kind, substituteWidget_of_none fld hn]

theorem c6_witness :
    (EditForm.processField true "u" "start_date" exampleDateField).widget.kind
      = (WIDGETS FormsFieldType.DATE).kind ∧
    dictGet (EditForm.processField true "u" "start_date"
      exampleDateField).widget.attrs "class" "" = " datefield" ∧
    dictGet (EditForm.processField true "u" "start_date"
      exampleDateField).widget.attrs "id" "" = "start_date-u" := by
  obtain ⟨h1, h2, h3, h4⟩ :=
    c6_editform_field_processing true "u" "start_date" exampleDateField
  refine ⟨h1 FormsFieldType.DATE rfl, ?_, ?_⟩
  · rw [h3]
    decide
  · rw [h4]
    decide

/-- C7: the dynamic inline admin form gains an extra optional order field
rendered by the order widget exactly when the bound model is orderable;
otherwise its field set is the standard model form field set, unchanged. -/
theorem c7_dynamic_inline_order_field (orderable : Bool)
    (base : List (String × FormField))
    (hno : dictContains base "_order" = false) :
    (orderable = true →
      DynamicInlineAdminForm.initFields orderable base
        = base ++ [("_order", DynamicInlineAdminForm.orderField)] ∧
      DynamicInlineAdminForm.orderField.required = false ∧
      DynamicInlineAdminForm.orderField.widget.kind = WidgetKind.OrderWidget) ∧
    (orderable = false →
      DynamicInlineAdminForm.initFields orderable base = base) := by
  constructor
  · intro h
    subst h
    exact ⟨dictSet_append_of_not_contains base "_order"
      DynamicInlineAdminForm.orderField hno, rfl, rfl⟩
  · intro h
    subst h
    rfl

theorem c7_witness :
    DynamicInlineAdminForm.initFields true [("title", exampleTitleField)]
      = [("title", exampleTitleField),
         ("_order", DynamicInlineAdminForm.orderField)] ∧
    DynamicInlineAdminForm.initFields false [("title", exampleTitleField)]
      = [("title", exampleTitleField)] :=
  ⟨((c7_dynamic_inline_order_field true [("title", exampleTitleField)]
      rfl).1 rfl).1,
   (c7_dynamic_inline_order_field false [("title", exampleTitleField)]
      rfl).2 rfl⟩

/-- C8: a processed edit form field widget carries the required attribute
exactly when the HTML5 flag is set and the field is required, provided the
widget did not already carry one; with the flag unset no field gains it. -/
theorem c8_editform_required_attr (h5 : Bool) (uuid name : String)
    (fld : FormField)
    (hpre : dictContains (EditForm.substituteWidget fld).widget.attrs
      "required" = false) :
    dictContains (EditForm.processField h5 uuid name fld).widget.attrs
      "required" = (h5 && fld.required) := by
  have hreq := substituteWidget_required fld
  unfold EditForm.processField EditForm.setWidgetAttr
  dsimp only
  split
  · rename_i hcond
    rw [dictContains_dictSet_same]
    rw [hreq] at hcond
    exact hcond.symm
  · rename_i hcond
    rw [dictContains_dictSet_ne _ "id" "required" _ (by decide),
      dictContains_dictSet_ne _ "class" "required" _ (by decide), hpre]
    rw [hreq] at hcond
    simp only [Bool.not_eq_true] at hcond
    exact hcond.symm

theorem c8_witness :
    dictContains (EditForm.processField true "u" "title"
      exampleTitleField).widget.attrs "required" = true ∧
    dictContains (EditForm.processField false "u" "title"
      exampleTitleField).widget.attrs "required" = false := by
  constructor
  · have h := c8_editform_required_attr true "u" "title" exampleTitleField rfl
    simpa using h
  · have h := c8_editform_required_attr false "u" "title" exampleTitleField rfl
    simpa using h

/-- C9: the per-field processing of the edit form constructor covers the
four hidden bookkeeping fields as well: each of app, model, id and fields
appears in the processed field dictionary with a widget id of the form
name-uuid and the charfield CSS class appended. -/
theorem c9_editform_hidden_fields_processed (h5 : Bool) (uuid : String)
    (modelFields : List (String × FormField)) :
    ∀ name ∈ ["app", "model", "id", "fields"],
      (name, EditForm.processField h5 uuid name EditForm.hiddenBookkeepingField)
        ∈ EditForm.initFields h5 uuid (EditForm.allFields modelFields) ∧
      dictGet (EditForm.processField h5 uuid name
        EditForm.hiddenBookkeepingField).widget.attrs "id" ""
        = name ++ "-" ++ uuid ∧
      dictGet (EditForm.processField h5 uuid name
        EditForm.hiddenBookkeepingField).widget.attrs "class" ""
        = " charfield" := by
  intro name hname
  have hmem : (name, EditForm.hiddenBookkeepingField)
      ∈ EditForm.allFields modelFields := by
    have h2 : (name, EditForm.hiddenBookkeepingField)
        ∈ EditForm.hiddenBookkeepingFields := by
      simp only [List.mem_cons, List.mem_singleton, List.not_mem_nil,
        or_false] at hname
      unfold EditForm.hiddenBookkeepingFields
      rcases hname with h | h | h | h <;> subst h <;> simp
    exact List.mem_append_right _ h2
  refine ⟨?_, processField_id h5 uuid name _, ?_⟩
  · unfold EditForm.initFields
    exact List.mem_map.mpr ⟨(name, EditForm.hiddenBookkeepingField), hmem, rfl⟩
  · rw [processField_class]
    decide

theorem c9_witness :
    ("app", EditForm.processField false "u" "app"
      EditForm.hiddenBookkeepingField)
      ∈ EditForm.initFields false "u" (EditForm.allFields []) ∧
    dictGet (EditForm.processField false "u" "app"
      EditForm.hiddenBookkeepingField).widget.attrs "id" "" = "app" ++ "-" ++ "u" ∧
    dictGet (EditForm.processField false "u" "app"
      EditForm.hiddenBookkeepingField).widget.attrs "class" "" = " charfield" :=
  c9_editform_hidden_fields_processed false "u" [] "app" (by decide)
